import Mathlib

/-
Verification development for the bintest library (buildkite/bintest):
a shallow embedding, in Lean 4, of the expectation/matching/check logic,
the per-invocation Call state machine, the proxy lifecycle and the IPC
server routing, together with theorems settling the specification claims.

Modelling conventions:
  * Go ints are Int; counters that the code compares against the sentinel
    InfiniteTimes = -1 stay Int.
  * Strings are processed through their character lists; the Go code is
    byte-oriented but coincides with this for the inputs at issue.
  * Pointers to expectations are modelled as indices into the owning list
    (heap flattening); the nil pointer is Option.none.
  * Side effects (writes to a stream, exits, spawning a passthrough) are
    reified as an event list; Go panics are the error case of Except.
-/

namespace Bintest

/-- Sentinel for an unbounded call count, mirroring InfiniteTimes = -1. -/
def InfiniteTimes : Int := -1

/-! ## Environment matcher (env.Match and GetEnv) -/

/-- Splits a character list at every occurrence of the character c,
mirroring strings.Split. -/
def splitOnChar (c : Char) : List Char → List (List Char)
  | [] => [[]]
  | a :: as =>
    let r := splitOnChar c as
    if a = c then [] :: r
    else
      match r with
      | [] => [[a]]
      | h :: t => (a :: h) :: t

/-- Splits a string on the separator character, as strings.Split does for
a one-character separator. -/
def splitEq (s : String) : List String :=
  (splitOnChar '=' s.toList).map fun l => String.mk l

/-- Uppercases a string character by character, mirroring strings.ToUpper
on the ASCII inputs at issue. -/
def strUpper (s : String) : String :=
  String.mk (s.toList.map Char.toUpper)

/-- GetEnv returns the value for a given key in the invocation environment:
the first entry whose segment before the first equals sign matches the key
case-insensitively yields the segment between the first and second equals
sign. Go indexes pair[1] directly; entries lacking an equals sign would
panic there, here they yield the empty string, a case outside every claim. -/
def GetEnv (key : String) (environ : List String) : Option String :=
  environ.findSome? fun e =>
    let pair := splitEq e
    if strUpper (pair.headD "") = strUpper key then some ((pair.get? 1).getD "") else none

/-- Result record of the environment matcher, mirroring EnvMatchResult. -/
structure EnvMatchResult where
  IsMatch : Bool := false
  MatchCount : Nat := 0
  Explanation : String := ""
deriving Repr, DecidableEq

/-- Loop body of env.Match: one required entry updates the accumulated
result exactly as the Go loop does. -/
def envMatchStep (environ : List String) (r : EnvMatchResult) (e : String) : EnvMatchResult :=
  match GetEnv ((splitEq e).headD "") environ with
  | none =>
    { r with Explanation := "Expected env " ++ e ++ ", " ++ (splitEq e).headD "" ++
               " was not set in environment",
             IsMatch := false }
  | some actual =>
    if actual ≠ ((splitEq e).get? 1).getD "" then
      { r with Explanation := "Expected env " ++ e ++ ", got " ++ actual, IsMatch := false }
    else
      { r with MatchCount := r.MatchCount + 1 }

/-- env.Match from env.go: walks the required entries, counting matches and
recording a diagnostic for the last failure; IsMatch is set at the end iff
every required entry matched. -/
def envMatch (environ : List String) (expect : List String) : EnvMatchResult :=
  let r := expect.foldl (envMatchStep environ) {}
  if r.MatchCount = expect.length then { r with IsMatch := true } else r

/-- Predicate form of one loop iteration succeeding: the key of the required
entry is found case-insensitively and the stored value segment equals the
required value segment. -/
def envEntryOk (environ : List String) (e : String) : Bool :=
  match GetEnv ((splitEq e).headD "") environ with
  | none => false
  | some actual => actual = ((splitEq e).get? 1).getD ""

/-- The full value of an entry KEY=VALUE: everything after the first equals
sign (what exact value matching, as the spec words it, would compare). -/
def valueAfterEq (s : String) : String :=
  String.intercalate "=" ((splitEq s).tail)

/-! ## Argument matcher

Modelled from the spec: the current arguments.go of the repository (the
Arguments type whose Match returns an ArgumentsMatchResult with IsMatch,
MatchCount and Explanation, and the any-remaining sentinel atom) is not
under src; only its callers (expectation.go) and its tests are. The
definitions below follow section 4.1 of the spec: positional matching of
atoms (literal, single-argument wildcard, pattern or predicate, and the
trailing any-remaining sentinel), success iff every atom accepts its
argument and the lengths agree unless the last atom is the sentinel,
an explanation citing the first failing position, and a MatchCount that
counts literal-character agreement for ranking near-matches. -/

/-- Matcher atom: a literal string, the any-single-argument wildcard, a
pattern or user predicate with a description, or the trailing sentinel
accepting all remaining arguments. -/
inductive ArgAtom where
  | lit (s : String)
  | anyArg
  | pred (descr : String) (p : String → Bool)
  | anyRemaining
deriving Inhabited

/-- Whether an atom accepts one actual argument. -/
def ArgAtom.accepts : ArgAtom → String → Bool
  | .lit s, a => s = a
  | .anyArg, _ => true
  | .pred _ p, a => p a
  | .anyRemaining, _ => true

/-- Human-readable description of an atom, used in explanations. -/
def ArgAtom.describe : ArgAtom → String
  | .lit s => s
  | .anyArg => "*"
  | .pred d _ => d
  | .anyRemaining => "*remaining*"

/-- Length of the longest common prefix of two character lists. -/
def commonPrefixLen : List Char → List Char → Nat
  | a :: as, b :: bs => if a = b then commonPrefixLen as bs + 1 else 0
  | _, _ => 0

/-- Literal-character agreement contributed by one atom and one actual
argument, used only to rank near-matches. -/
def atomMatchCount : ArgAtom → String → Nat
  | .lit s, a => commonPrefixLen s.toList a.toList
  | _, _ => 0

/-- Result record of the argument matcher, mirroring ArgumentsMatchResult. -/
structure ArgumentsMatchResult where
  IsMatch : Bool := false
  MatchCount : Nat := 0
  Explanation : String := ""
deriving Repr, DecidableEq

/-- An argument pattern is the ordered list of declared atoms. -/
abbrev Arguments := List ArgAtom

/-- Explanation for an actual argument beyond the declared pattern. -/
def extraArgMsg (i : Nat) : String :=
  "Argument #" ++ toString i ++ " does not match: Unexpected extra argument"

/-- Explanation for a declared atom with no actual argument left. -/
def missingArgMsg (i : Nat) (e : ArgAtom) : String :=
  "Argument #" ++ toString i ++ " does not match: Expected " ++ e.describe ++
    ", but missing an argument"

/-- Explanation for an atom rejecting its actual argument. -/
def mismatchMsg (i : Nat) (e : ArgAtom) (a : String) : String :=
  "Argument #" ++ toString i ++ " does not match: Expected " ++ e.describe ++ ", got " ++ a

/-- Positional matching walk, carrying the one-based position of the next
argument and the accumulated MatchCount. Modelled from the spec: the match
succeeds iff every atom accepts its argument and the vectors have equal
length, except that a trailing any-remaining sentinel accepts all leftover
arguments; a failure explanation cites the first failing position. -/
def argsMatchFrom : Nat → Nat → List ArgAtom → List String → ArgumentsMatchResult
  | _, count, [], [] => { IsMatch := true, MatchCount := count }
  | i, count, [], _ :: _ => { MatchCount := count, Explanation := extraArgMsg i }
  | _, count, [ArgAtom.anyRemaining], _ => { IsMatch := true, MatchCount := count }
  | i, count, e :: _, [] => { MatchCount := count, Explanation := missingArgMsg i e }
  | i, count, e :: es, a :: as =>
    if e.accepts a then argsMatchFrom (i + 1) (count + atomMatchCount e a) es as
    else { MatchCount := count + atomMatchCount e a, Explanation := mismatchMsg i e a }

/-- Arguments.Match compares the declared atoms against an actual argument
vector. Modelled from the spec (see argsMatchFrom). -/
def Arguments.Match (a : Arguments) (x : List String) : ArgumentsMatchResult :=
  argsMatchFrom 1 0 a x

/-! ## Expectation, expectation set and result set (expectation.go) -/

/-- Matcher for captured stdin: a literal string or a pattern or predicate
with a description (the Go field holds an interface value). -/
inductive StdinPat where
  | lit (s : String)
  | pred (descr : String) (p : String → Bool)

/-- Reified effects of reacting to a call: writes to the client streams,
an exit with a code, or a synchronous passthrough to a local command with
the default ten-second timeout. -/
inductive Ev where
  | stdoutWrite (s : String)
  | stderrWrite (s : String)
  | exit (code : Int)
  | passthroughTo (path : String)
deriving Repr, DecidableEq

/-- Expectation from expectation.go: declared pattern, reaction fields,
call-count bounds and state. The callFunc reaction is user code; it is
modelled by the event list the handler emits. -/
structure Expectation where
  name : String := ""
  sequence : Int := 0
  arguments : Arguments := []
  exitCode : Int := 0
  passthroughPath : String := ""
  callFunc : Option (List Ev) := none
  totalCalls : Int := 0
  minCalls : Int := 0
  maxCalls : Int := 0
  writeStdout : String := ""
  writeStderr : String := ""
  stdin : Option StdinPat := none
  readStdin : String := ""

/-- Expectation.Check from expectation.go lines 121 to 134: the expectation
passes iff totalCalls is at least minCalls and at most maxCalls, each bound
waived when it is the InfiniteTimes sentinel. The reporter logging is a
side effect not affecting the returned value and is omitted. -/
def Expectation.Check (e : Expectation) : Bool :=
  if e.minCalls ≠ InfiniteTimes ∧ e.totalCalls < e.minCalls then false
  else if e.maxCalls ≠ InfiniteTimes ∧ e.totalCalls > e.maxCalls then false
  else true

/-- One row of a result set: the expectation (with the index standing in
for the Go pointer into the owning set), the argument match outcome, and
whether the call count still admits another call. -/
structure ExpectationResult where
  index : Nat := 0
  arguments : List String := []
  expectation : Expectation := {}
  argumentsMatchResult : ArgumentsMatchResult := {}
  callCountMatch : Bool := false

/-- A result set is the list of rows produced for one argument vector. -/
abbrev ExpectationResultSet := List ExpectationResult

/-- ExpectationResultSet.Match returns the first row whose arguments match
exactly and whose call count has room, mirroring the loop in
expectation.go; Option.none stands for the ErrNoExpectationsMatch error. -/
def ExpectationResultSet.Match (r : ExpectationResultSet) : Option ExpectationResult :=
  r.find? fun row => row.argumentsMatchResult.IsMatch && row.callCountMatch

/-- ExpectationResultSet.ClosestMatch returns the row with the strictly
largest MatchCount, scanning in order from a zero row exactly as the Go
loop initializes closest and bestCount to zero values. -/
def ExpectationResultSet.ClosestMatch (r : ExpectationResultSet) : ExpectationResult :=
  (r.foldl
    (fun acc row =>
      if row.argumentsMatchResult.MatchCount > acc.2 then (row, row.argumentsMatchResult.MatchCount)
      else acc)
    ({}, 0)).1

/-- ExpectationResult.Explain from expectation.go lines 194 to 203, with the
format strings simplified to plain text of the same structure. -/
def ExpectationResult.Explain (r : ExpectationResult) : String :=
  if r.argumentsMatchResult.IsMatch ∧ r.callCountMatch then
    "Arguments matched " ++ r.expectation.name
  else if r.argumentsMatchResult.IsMatch ∧ ¬r.callCountMatch then
    "Arguments matched " ++ r.expectation.name ++ ", but total calls of " ++
      toString (r.expectation.totalCalls + 1) ++ " would exceed maxCalls of " ++
      toString r.expectation.maxCalls
  else
    "Args did not match any expectations. Closest was " ++ r.expectation.name ++
      ", but " ++ r.argumentsMatchResult.Explanation

/-- An expectation set is the ordered list of declared expectations. -/
abbrev ExpectationSet := List Expectation

/-- Row built for one expectation at a given index, as in the loop body of
ExpectationSet.ForArguments. -/
def mkExpectationResult (args : List String) (i : Nat) (e : Expectation) : ExpectationResult :=
  { index := i,
    arguments := args,
    expectation := e,
    argumentsMatchResult := Arguments.Match e.arguments args,
    callCountMatch := e.maxCalls = InfiniteTimes || e.totalCalls < e.maxCalls }

/-- ForArguments walk carrying the index of the next expectation. -/
def forArgumentsFrom (args : List String) : Nat → List Expectation → ExpectationResultSet
  | _, [] => []
  | i, e :: es => mkExpectationResult args i e :: forArgumentsFrom args (i + 1) es

/-- ExpectationSet.ForArguments from expectation.go lines 209 to 224:
applies the argument vector to every expectation in declaration order and
records, per row, the argument match result and whether the call count
still has room. -/
def ExpectationSet.ForArguments (exp : ExpectationSet) (args : List String) : ExpectationResultSet :=
  forArgumentsFrom args 0 exp

/-! ## Mock (mock.go: invoke, Expect, Check) -/

/-- Invocation record of one completed call; the expectation field models
the Go pointer as an index into the expected list, none being nil. -/
structure Invocation where
  args : List String := []
  env : List String := []
  dir : String := ""
  expectation : Option Nat := none

/-- Incoming call data as the dispatcher sees it: argv including argv zero,
environment, working directory, and the full stdin contents. -/
structure CallIn where
  args : List String := []
  env : List String := []
  dir : String := ""
  stdinData : String := ""

/-- Mock from mock.go: invocation log, declared expectations, before
middleware (each returning an error message or none), the
ignore-unexpected flag and the mock-level passthrough path. -/
structure Mock where
  name : String := ""
  path : String := ""
  invocations : List Invocation := []
  expected : ExpectationSet := []
  before : List (Invocation → Option String) := []
  ignoreUnexpected : Bool := false
  passthroughPath : String := ""

/-- Error line written to a call stderr; the source wraps the message in an
ANSI color code and an emoji, kept here as plain text of the same shape. -/
def errorLine (s : String) : String :=
  "Error: " ++ s ++ "\n"

/-- Mock.Expect from mock.go lines 208 to 224: appends a fresh expectation
with sequence one past the current count, the given argument pattern,
empty output buffers, minCalls and maxCalls both one, and the mock current
passthrough path; returns the updated mock and the new expectation. -/
def Mock.Expect (m : Mock) (args : Arguments) : Mock × Expectation :=
  let ex : Expectation :=
    { name := m.name,
      sequence := (m.expected.length : Int) + 1,
      arguments := args,
      writeStderr := "",
      writeStdout := "",
      minCalls := 1,
      maxCalls := 1,
      passthroughPath := m.passthroughPath }
  ({ m with expected := m.expected ++ [ex] }, ex)

/-- Reaction of the matched branch of Mock.invoke: mock-level passthrough
wins, then expectation passthrough, then the call handler, then the canned
stdout and stderr bytes followed by the exit code. -/
def reactionEvents (m : Mock) (e : Expectation) : List Ev :=
  if m.passthroughPath ≠ "" then [.passthroughTo m.passthroughPath]
  else if e.passthroughPath ≠ "" then [.passthroughTo e.passthroughPath]
  else
    match e.callFunc with
    | some evs => evs
    | none => [.stdoutWrite e.writeStdout, .stderrWrite e.writeStderr, .exit e.exitCode]

/-- Mock.invoke from mock.go lines 95 to 169: runs the before middleware,
matches argv dropped of argv zero against the expectation set, and either
records an unmatched invocation and exits (silently with zero when
ignoreUnexpected, else with the closest-match explanation on stderr and
code one), or captures stdin when a stdin matcher is set, reacts, bumps
the matched expectation totalCalls and records the invocation. -/
def Mock.invoke (m : Mock) (call : CallIn) : Mock × List Ev :=
  let invocation : Invocation :=
    { args := call.args.drop 1, env := call.env, dir := call.dir }
  match m.before.findSome? (fun f => f invocation) with
  | some err => (m, [.stderrWrite (errorLine err), .exit 1])
  | none =>
    let result := ExpectationSet.ForArguments m.expected (call.args.drop 1)
    match result.Match with
    | none =>
      let m1 := { m with invocations := m.invocations ++ [invocation] }
      if m1.ignoreUnexpected then (m1, [.exit 0])
      else (m1, [.stderrWrite (errorLine result.ClosestMatch.Explain), .exit 1])
    | some row =>
      let e0 := row.expectation
      let e1 := if e0.stdin.isSome then { e0 with readStdin := call.stdinData } else e0
      let evs := reactionEvents m e1
      let e2 := { e1 with totalCalls := e1.totalCalls + 1 }
      ({ m with
           expected := m.expected.set row.index e2,
           invocations := m.invocations ++ [{ invocation with expectation := some row.index }] },
       evs)

/-- Mock.Check from mock.go lines 234 to 275: with no expectations declared
it returns true at once; otherwise it counts expectations failing their
bounds check and, unless ignoreUnexpected is set, invocations that matched
no expectation, and returns true iff both counts are zero. Reporter
logging is a side effect not affecting the returned value. -/
def Mock.Check (m : Mock) : Bool :=
  if m.expected.length = 0 then true
  else
    let failedExpectations := m.expected.countP fun e => !e.Check
    let unexpectedInvocations :=
      if ¬m.ignoreUnexpected then m.invocations.countP fun i => i.expectation.isNone
      else 0
    unexpectedInvocations = 0 ∧ failedExpectations = 0

/-! ## Call state machine (proxy package: Exit, Fatal, passthrough) -/

/-- Exit coordination state of a live Call: the atomic done guard and the
two writer-closed flags. -/
structure CallSt where
  done : Bool := false
  stdoutClosed : Bool := false
  stderrClosed : Bool := false
deriving Repr, DecidableEq

/-- Events emitted while finishing a call: closing a writer, sending the
exit code on the exit-code signal, blocking until the client acknowledges,
and a stderr diagnostic write. -/
inductive ExitEv where
  | closeStderr
  | closeStdout
  | sendExit (code : Int)
  | awaitAck
  | stderrWrite (s : String)
deriving Repr, DecidableEq

/-- Call.Exit from the proxy package: the compare-and-swap on the done
guard fails fatally (panics) when the call is already finished; otherwise
it closes the stderr and stdout writers, sends the code on the exit-code
signal and blocks until the client-acknowledged signal fires. The error
case of Except models the Go panic. -/
def Call.Exit (c : CallSt) (code : Int) : Except String (CallSt × List ExitEv) :=
  if c.done then .error "Cannot call Exit on a Call that is already finished"
  else
    .ok ({ c with done := true, stderrClosed := true, stdoutClosed := true },
      [.closeStderr, .closeStdout, .sendExit code, .awaitAck])

/-- Errors handed to Call.Fatal: a child exit status carrying a code, or
any other error with its message. -/
inductive FatalErr where
  | exitError (code : Int)
  | other (msg : String)
deriving Repr, DecidableEq

/-- Call.Fatal from the proxy package: writes the error text to stderr and
exits with the carried child status for an exit error, else with one. -/
def Call.Fatal (c : CallSt) (err : FatalErr) : Except String (CallSt × List ExitEv) :=
  let msg :=
    match err with
    | .exitError code => "exit status " ++ toString code
    | .other m => m
  let code : Int :=
    match err with
    | .exitError code => code
    | .other _ => 1
  (Call.Exit c code).map fun r => (r.1, .stderrWrite ("Fatal error: " ++ msg) :: r.2)

/-- Outcome of waiting on the spawned passthrough child. -/
inductive WaitOutcome where
  | finished
  | exitError (code : Int)
  | otherError (msg : String)
deriving Repr, DecidableEq

/-- One passthrough scenario: whether starting the child failed, whether
the execution context deadline had elapsed when the wait returned, and the
wait outcome itself. -/
structure PtCase where
  startFails : Bool := false
  deadlineExceeded : Bool := false
  wait : WaitOutcome := .finished
deriving Repr, DecidableEq

/-- Target a spawned command stream is wired to. -/
inductive Wire where
  | callStdout
  | callStderr
  | callStdin
deriving Repr, DecidableEq

/-- Specification of the spawned command: executable path, arguments,
environment, working directory, and the stdio wiring. -/
structure CmdSpec where
  path : String := ""
  args : List String := []
  env : List String := []
  dir : String := ""
  stdout : Wire := .callStdout
  stderr : Wire := .callStderr
  stdin : Wire := .callStdin
deriving Repr, DecidableEq

/-- Call.passthrough from the proxy package: spawns the path with the call
argv dropped of argv zero, the call environment, directory and wired
stdio; a start failure is fatal with a non-exit error; a wait error is
fatal with the deadline message when the context deadline elapsed, else
fatal with the error itself; a clean wait exits with zero. Returns the
spawned command specification and the exit interaction. -/
def Call.passthrough (c : CallIn) (st : CallSt) (path : String) (sc : PtCase) :
    CmdSpec × Except String (CallSt × List ExitEv) :=
  let cmd : CmdSpec :=
    { path := path, args := c.args.drop 1, env := c.env, dir := c.dir,
      stdout := .callStdout, stderr := .callStderr, stdin := .callStdin }
  let result :=
    if sc.startFails then Call.Fatal st (.other "start failed")
    else
      match sc.wait with
      | .finished => Call.Exit st 0
      | .exitError code =>
        if sc.deadlineExceeded then
          Call.Fatal st (.other "Command exceeded deadline and was killed")
        else Call.Fatal st (.exitError code)
      | .otherError msg =>
        if sc.deadlineExceeded then
          Call.Fatal st (.other "Command exceeded deadline and was killed")
        else Call.Fatal st (.other msg)
  (cmd, result)

/-- The exit code actually sent on the exit-code signal during a finished
interaction, if any. -/
def sentExitCode (r : Except String (CallSt × List ExitEv)) : Option Int :=
  match r with
  | .error _ => none
  | .ok (_, evs) =>
    evs.findSome? fun ev =>
      match ev with
      | .sendExit code => some code
      | _ => none

/-! ## Proxy lifecycle (proxy package: Close) -/

/-- Proxy state relevant to Close: whether the delivery channel has been
closed, the temp directory if the library created one, and whether the
proxy is still registered with the server. -/
structure ProxySt where
  chClosed : Bool := false
  tempDir : String := ""
  registered : Bool := true
deriving Repr, DecidableEq

/-- Proxy.Close from the proxy package: closes the delivery channel (a Go
runtime panic, modelled as the error case, when the channel is already
closed), then deregisters from the server and removes the temp directory
when one was created; on success it returns no error. -/
def Proxy.Close (p : ProxySt) : Except String (ProxySt × Option String) :=
  if p.chClosed then .error "close of closed channel"
  else .ok ({ p with chClosed := true, registered := false, tempDir := "" }, none)

/-! ## IPC server routing (server.go) -/

/-- The four per-call streaming endpoints. -/
inductive StreamKind where
  | stdout
  | stderr
  | stdin
  | exitcode
deriving Repr, DecidableEq

/-- Routes the server distinguishes. -/
inductive SrvRoute where
  | debug
  | callsNew
  | callStream (pid : Nat) (kind : StreamKind)
  | unknown
deriving Repr, DecidableEq

/-- Strips a literal character prefix, returning the remainder. -/
def stripLit : List Char → List Char → Option (List Char)
  | [], rest => some rest
  | _ :: _, [] => none
  | p :: ps, a :: as => if p = a then stripLit ps as else none

/-- Numeric value of a digit list. -/
def digitsToNat (l : List Char) : Nat :=
  l.foldl (fun n c => n * 10 + (c.toNat - 48)) 0

/-- Parses the stream suffix of a call route. -/
def parseStreamKind (l : List Char) : Option StreamKind :=
  if l = "stdout".toList then some .stdout
  else if l = "stderr".toList then some .stderr
  else if l = "stdin".toList then some .stdin
  else if l = "exitcode".toList then some .exitcode
  else none

/-- Equivalent of the route regular expression anchored on calls slash
digits slash one of the four stream endpoints. -/
def parseCallRoute (path : String) : Option (Nat × StreamKind) :=
  match stripLit "/calls/".toList path.toList with
  | none => none
  | some rest =>
    let digits := rest.takeWhile Char.isDigit
    if digits.isEmpty then none
    else
      match stripLit digits (rest) with
      | none => none
      | some afterDigits =>
        match afterDigits with
        | '/' :: tail =>
          (parseStreamKind tail).map fun k => (digitsToNat digits, k)
        | _ => none

/-- Route classification mirroring the dispatch order of ServeHTTP. -/
def parseRoute (path : String) : SrvRoute :=
  if path = "/debug" then .debug
  else if path = "/calls/new" then .callsNew
  else
    match parseCallRoute path with
    | some (pid, k) => .callStream pid k
    | none => .unknown

/-- Body of a new-call request, mirroring callRequest; a request whose body
fails to decode is represented as Option.none at the call site. -/
structure CallRequest where
  pid : Nat := 0
  args : List String := []
  env : List String := []
  dir : String := ""
  hasStdin : Bool := false

/-- Server registry state relevant to routing: registered proxy paths,
path aliases, and the pids with a stored call handler. -/
structure ServerSt where
  proxies : List String := []
  aliases : List (String × String) := []
  callHandlers : List Nat := []

/-- Server.lookupProxy from server.go: a direct hit in the proxy map, else
the first alias of the path whose target is registered. -/
def lookupProxy (s : ServerSt) (path : String) : Option String :=
  if s.proxies.contains path then some path
  else
    (s.aliases.filterMap fun kv => if kv.1 = path then some kv.2 else none).find?
      fun tgt => s.proxies.contains tgt

/-- Server.handleNewCall from server.go lines 184 to 230, reduced to the
response status: a body that fails to decode gets status 400; an argv zero
with no registered proxy gets status 404; otherwise the call is created
and dispatched (status 200). Go indexes Args[0] directly; an empty Args
would panic there, here it looks up the empty string, a case outside every
claim. -/
def handleNewCall (s : ServerSt) (body : Option CallRequest) : Nat :=
  match body with
  | none => 400
  | some req =>
    match lookupProxy s ((req.args.headD "")) with
    | none => 404
    | some _ => 200

/-- Server.ServeHTTP from server.go lines 133 to 174, reduced to the
response status: the debug endpoint consumes the body (status 200); calls
slash new goes to handleNewCall; a path matching the call route regular
expression is dispatched to the stored handler for its pid, status 404
when no handler is registered; any other path gets the unknown-route
error with status 400. -/
def ServeHTTP (s : ServerSt) (path : String) (body : Option CallRequest) : Nat :=
  match parseRoute path with
  | .debug => 200
  | .callsNew => handleNewCall s body
  | .callStream pid _ => if s.callHandlers.contains pid then 200 else 404
  | .unknown => 400

/-! ## Derived notions used in theorem statements -/

/-- Whether an expectation still has room for a call: maxCalls is the
unbounded sentinel or totalCalls has not yet reached it (the
CallCountMatch condition of ForArguments). -/
def expectAvail (e : Expectation) : Bool :=
  e.maxCalls = InfiniteTimes || e.totalCalls < e.maxCalls

/-- Whether an expectation's declared pattern matches an argument vector. -/
def expectMatches (args : List String) (e : Expectation) : Bool :=
  (Arguments.Match e.arguments args).IsMatch

/-- Whether a row built for an expectation would be selected by
ExpectationResultSet.Match: arguments match and the count has room. -/
def expectHit (args : List String) (e : Expectation) : Bool :=
  expectMatches args e && expectAvail e

/-- First expectation, scanning from a start index, that both matches the
arguments and has room in its call count; used to state the declaration
order property of ExpectationResultSet.Match. -/
def firstHit (args : List String) : Nat → List Expectation → Option (Nat × Expectation)
  | _, [] => none
  | i, e :: es => if expectHit args e then some (i, e) else firstHit args (i + 1) es

end Bintest

/-! # Theorems -/

namespace Bintest

/-- Bounds reading of Expectation.Check: it passes iff each bound is the
unbounded sentinel or is respected by totalCalls. -/
theorem Expectation.Check_iff (e : Expectation) :
    e.Check = true ↔
      ((e.minCalls = InfiniteTimes ∨ e.minCalls ≤ e.totalCalls) ∧
       (e.maxCalls = InfiniteTimes ∨ e.totalCalls ≤ e.maxCalls)) := by
  unfold Expectation.Check
  split_ifs with h1 h2
  · simp only [Bool.false_eq_true, false_iff, not_and_or]
    rcases h1 with ⟨hne, hlt⟩
    left
    rintro (h | h)
    · exact hne h
    · omega
  · simp only [Bool.false_eq_true, false_iff, not_and_or]
    rcases h2 with ⟨hne, hgt⟩
    right
    rintro (h | h)
    · exact hne h
    · omega
  · simp only [true_iff]
    rw [not_and_or] at h1 h2
    constructor
    · rcases h1 with h | h
      · left
        by_contra hne
        exact h hne
      · right
        omega
    · rcases h2 with h | h
      · left
        by_contra hne
        exact h hne
      · right
        omega

/-- C10: an Expectation created by Mock.Expect starts with minCalls one and
maxCalls one and zero recorded calls, so its bounds check passes exactly
when it has been called once (unless a builder later changes the bounds),
and it starts with the mock's current passthroughPath as its reaction;
the expectation is appended to the declared set. -/
theorem expect_defaults (m : Mock) (args : Arguments) :
    (Mock.Expect m args).2.minCalls = 1 ∧
    (Mock.Expect m args).2.maxCalls = 1 ∧
    (Mock.Expect m args).2.totalCalls = 0 ∧
    (Mock.Expect m args).2.passthroughPath = m.passthroughPath ∧
    (∀ t : Int, Expectation.Check { (Mock.Expect m args).2 with totalCalls := t } = true ↔ t = 1) ∧
    (Mock.Expect m args).1.expected = m.expected ++ [(Mock.Expect m args).2] := by
  refine ⟨rfl, rfl, rfl, rfl, ?_, rfl⟩
  intro t
  rw [Expectation.Check_iff]
  show ((1 : Int) = InfiniteTimes ∨ (1 : Int) ≤ t) ∧ ((1 : Int) = InfiniteTimes ∨ t ≤ 1) ↔ t = 1
  unfold InfiniteTimes
  omega

/-- C1 counterexample: a mock with no declared expectations but a recorded
invocation that matched nothing, with ignoreUnexpected unset. Check
returns true at once for an empty expectation set, although the claimed
right-hand side is false. -/
theorem check_no_expectations_counterexample :
    Mock.Check { expected := [], invocations := [{ args := ["x"] }], ignoreUnexpected := false } = true ∧
    ({ expected := [], invocations := [{ args := ["x"] }], ignoreUnexpected := false } : Mock).ignoreUnexpected = false ∧
    ¬(∀ i ∈ ({ expected := [], invocations := [{ args := ["x"] }], ignoreUnexpected := false } : Mock).invocations,
        i.expectation ≠ none) := by
  refine ⟨rfl, rfl, ?_⟩
  intro h
  exact h { args := ["x"] } (by simp) rfl

/-- C1 (amended): Mock.Check returns true iff the expectation set is empty,
or every declared expectation has totalCalls within its bounds (each bound
waived when it is the unbounded sentinel) and every recorded invocation
matched an expectation unless ignoreUnexpected is set. -/
theorem check_characterization (m : Mock) :
    m.Check = true ↔
      (m.expected = [] ∨
        ((∀ e ∈ m.expected,
            (e.minCalls = InfiniteTimes ∨ e.minCalls ≤ e.totalCalls) ∧
            (e.maxCalls = InfiniteTimes ∨ e.totalCalls ≤ e.maxCalls)) ∧
         (m.ignoreUnexpected = true ∨ ∀ i ∈ m.invocations, i.expectation ≠ none))) := by
  unfold Mock.Check
  by_cases hlen : m.expected.length = 0
  · rw [if_pos hlen]
    simp only [true_iff]
    left
    exact List.length_eq_zero.mp hlen
  · rw [if_neg hlen]
    have hne : ¬(m.expected = []) := fun h => hlen (by simp [h])
    by_cases hig : m.ignoreUnexpected = true
    · rw [if_neg (by simp [hig])]
      simp only [decide_eq_true_eq]
      constructor
      · rintro ⟨-, hf⟩
        right
        refine ⟨?_, Or.inl hig⟩
        intro e he
        rw [← Expectation.Check_iff]
        simpa using List.countP_eq_zero.mp hf e he
      · rintro (h | ⟨hb, -⟩)
        · exact absurd h hne
        · refine ⟨by trivial, ?_⟩
          apply List.countP_eq_zero.mpr
          intro e he
          simpa using (Expectation.Check_iff e).mpr (hb e he)
    · rw [if_pos (by simpa using hig)]
      simp only [decide_eq_true_eq]
      constructor
      · rintro ⟨hu, hf⟩
        right
        refine ⟨?_, Or.inr ?_⟩
        · intro e he
          rw [← Expectation.Check_iff]
          simpa using List.countP_eq_zero.mp hf e he
        · intro i hi
          simpa [Option.isNone_iff_eq_none] using List.countP_eq_zero.mp hu i hi
      · rintro (h | ⟨hb, hu⟩)
        · exact absurd h hne
        · refine ⟨?_, ?_⟩
          · apply List.countP_eq_zero.mpr
            intro i hi
            rcases hu with hu | hu
            · exact absurd hu hig
            · simpa [Option.isNone_iff_eq_none] using hu i hi
          · apply List.countP_eq_zero.mpr
            intro e he
            simpa using (Expectation.Check_iff e).mpr (hb e he)

/-- C2: Call.Exit is permitted exactly once. On an unfinished call it
closes the stderr and stdout writers before sending the code on the
exit-code signal and then blocks awaiting the client acknowledgement;
afterwards, and on any already finished call, Exit fails fatally. -/
theorem call_exit_once (c : CallSt) (code : Int) :
    (c.done = false →
      Call.Exit c code =
        .ok ({ done := true, stdoutClosed := true, stderrClosed := true },
          [.closeStderr, .closeStdout, .sendExit code, .awaitAck]) ∧
      ∀ code2 : Int,
        ∃ msg, Call.Exit { done := true, stdoutClosed := true, stderrClosed := true } code2 =
          .error msg) ∧
    (c.done = true → ∃ msg, Call.Exit c code = .error msg) := by
  constructor
  · intro hdone
    refine ⟨?_, fun code2 => ⟨_, rfl⟩⟩
    obtain ⟨d, so, se⟩ := c
    simp only at hdone
    subst hdone
    rfl
  · intro hdone
    refine ⟨"Cannot call Exit on a Call that is already finished", ?_⟩
    simp [Call.Exit, hdone]

/-- C2 witness: a fresh call exits once with code seven, producing the
close, send and acknowledge interaction in order. -/
theorem call_exit_once_witness :
    (({} : CallSt).done = false) ∧
    Call.Exit {} 7 =
      .ok ({ done := true, stdoutClosed := true, stderrClosed := true },
        [.closeStderr, .closeStdout, .sendExit 7, .awaitAck]) :=
  ⟨rfl, ((call_exit_once {} 7).1 rfl).1⟩

/-- C8 counterexample: after a completed Close of a fresh proxy, a second
Close does not return without failure: it fails hard closing the already
closed delivery channel. -/
theorem close_twice_counterexample :
    Proxy.Close {} = .ok ({ chClosed := true, tempDir := "", registered := false }, none) ∧
    Proxy.Close { chClosed := true, tempDir := "", registered := false } =
      .error "close of closed channel" :=
  ⟨rfl, rfl⟩

/-- C8 (amended): Close on a proxy whose delivery channel is still open
succeeds with no error, closing the channel, deregistering and removing
the temp directory; Close is not idempotent: on the state produced by a
completed Close a second Close fails hard (the runtime panic of closing a
closed channel), as the lifecycle-errors policy of the spec states. -/
theorem proxy_close_spec (p : ProxySt) :
    (p.chClosed = false →
      Proxy.Close p = .ok ({ chClosed := true, tempDir := "", registered := false }, none)) ∧
    (∀ p2 err, Proxy.Close p = .ok (p2, err) → ∃ msg, Proxy.Close p2 = .error msg) := by
  constructor
  · intro h
    obtain ⟨ch, td, rg⟩ := p
    simp only at h
    subst h
    rfl
  · intro p2 err hok
    cases hpc : p.chClosed with
    | true => simp [Proxy.Close, hpc] at hok
    | false =>
      simp only [Proxy.Close, hpc, Bool.false_eq_true, if_false, Except.ok.injEq, Prod.mk.injEq] at hok
      obtain ⟨h1, h2⟩ := hok
      subst h1
      exact ⟨"close of closed channel", rfl⟩

/-- C8 witness: the fresh proxy closes once without error. -/
theorem proxy_close_spec_witness :
    (({} : ProxySt).chClosed = false) ∧
    Proxy.Close {} = .ok ({ chClosed := true, tempDir := "", registered := false }, none) :=
  ⟨rfl, (proxy_close_spec {}).1 rfl⟩

/-- C7 counterexample: a request whose route path is not recognized
receives status 400 (Bad Request), not 404 as claimed. -/
theorem unknown_route_counterexample :
    ServeHTTP {} "/unknown-route" none = 400 ∧ (400 : Nat) ≠ 404 :=
  ⟨rfl, by decide⟩

/-- C7 (amended): unrecognized route paths receive status 400; a new-call
request whose body fails to decode receives status 400; a call route
naming a pid with no registered handler receives status 404; and every
request receives one of the statuses 200, 400 or 404, so the server keeps
serving after any client error. -/
theorem server_status_spec (s : ServerSt) (path : String) (body : Option CallRequest) :
    (parseRoute path = .unknown → ServeHTTP s path body = 400) ∧
    (ServeHTTP s "/calls/new" none = 400) ∧
    (∀ pid k, parseRoute path = .callStream pid k → s.callHandlers.contains pid = false →
      ServeHTTP s path body = 404) ∧
    (ServeHTTP s path body = 200 ∨ ServeHTTP s path body = 400 ∨ ServeHTTP s path body = 404) := by
  refine ⟨?_, rfl, ?_, ?_⟩
  · intro h
    simp [ServeHTTP, h]
  · intro pid k h hc
    unfold ServeHTTP
    rw [h]
    show (if s.callHandlers.contains pid = true then 200 else 404) = 404
    rw [if_neg (by rw [hc]; exact Bool.false_ne_true)]
  · unfold ServeHTTP
    cases hr : parseRoute path with
    | debug => simp
    | callsNew =>
      unfold handleNewCall
      cases body with
      | none => simp
      | some req => cases hl : lookupProxy s (req.args.head?.getD "") <;> simp [hl]
    | callStream pid k =>
      cases hc : s.callHandlers.contains pid with
      | true =>
        left
        show (if s.callHandlers.contains pid = true then 200 else 404) = 200
        rw [if_pos hc]
      | false =>
        right
        right
        show (if s.callHandlers.contains pid = true then 200 else 404) = 404
        rw [if_neg (by rw [hc]; exact Bool.false_ne_true)]
    | unknown => simp

/-- C7 witness: a pid with no registered handler yields status 404 through
the amended theorem. -/
theorem server_status_spec_witness :
    parseRoute "/calls/12/stdout" = .callStream 12 .stdout ∧
    (({} : ServerSt).callHandlers.contains 12 = false) ∧
    ServeHTTP {} "/calls/12/stdout" none = 404 :=
  ⟨rfl, rfl, (server_status_spec {} "/calls/12/stdout" none).2.2.1 12 .stdout rfl rfl⟩

/-- C6: passthrough spawns the path with the call argv dropped of argv
zero, the call environment, working directory, and stdio wired to the
call streams; the exit code sent reflects the child outcome: zero on a
clean wait, the child exit status on an exit error, one on a non-exit
error or a start failure, and one when the context deadline elapsed (the
child having been killed by the cancellable execution context). -/
theorem passthrough_spec (c : CallIn) (st : CallSt) (path : String) (sc : PtCase) :
    st.done = false →
      (Call.passthrough c st path sc).1 =
        { path := path, args := c.args.drop 1, env := c.env, dir := c.dir,
          stdout := .callStdout, stderr := .callStderr, stdin := .callStdin } ∧
      (sc.startFails = true → sentExitCode (Call.passthrough c st path sc).2 = some 1) ∧
      (sc.startFails = false → sc.wait = .finished →
        sentExitCode (Call.passthrough c st path sc).2 = some 0) ∧
      (∀ code, sc.startFails = false → sc.deadlineExceeded = false → sc.wait = .exitError code →
        sentExitCode (Call.passthrough c st path sc).2 = some code) ∧
      (∀ msg, sc.startFails = false → sc.deadlineExceeded = false → sc.wait = .otherError msg →
        sentExitCode (Call.passthrough c st path sc).2 = some 1) ∧
      (∀ code, sc.startFails = false → sc.deadlineExceeded = true → sc.wait = .exitError code →
        sentExitCode (Call.passthrough c st path sc).2 = some 1) ∧
      (∀ msg, sc.startFails = false → sc.deadlineExceeded = true → sc.wait = .otherError msg →
        sentExitCode (Call.passthrough c st path sc).2 = some 1) := by
  intro hdone
  obtain ⟨sd, so, se⟩ := st
  simp only at hdone
  subst hdone
  obtain ⟨sf, de, w⟩ := sc
  refine ⟨rfl, ?_, ?_, ?_, ?_, ?_, ?_⟩
  · intro h
    simp only at h
    subst h
    rfl
  · intro h hw
    simp only at h hw
    subst h
    subst hw
    rfl
  · intro code h hd hw
    simp only at h hd hw
    subst h
    subst hd
    subst hw
    rfl
  · intro msg h hd hw
    simp only at h hd hw
    subst h
    subst hd
    subst hw
    rfl
  · intro code h hd hw
    simp only at h hd hw
    subst h
    subst hd
    subst hw
    rfl
  · intro msg h hd hw
    simp only at h hd hw
    subst h
    subst hd
    subst hw
    rfl

/-- C6 witness: a passthrough child that failed with exit status seven
makes the call exit with seven, spawned with argv dropped of argv zero. -/
theorem passthrough_spec_witness :
    (({} : CallSt).done = false) ∧
    (Call.passthrough { args := ["bin", "a"], env := ["E=1"], dir := "/d" } {} "/bin/real"
        { startFails := false, deadlineExceeded := false, wait := .exitError 7 }).1 =
      { path := "/bin/real", args := ["a"], env := ["E=1"], dir := "/d",
        stdout := .callStdout, stderr := .callStderr, stdin := .callStdin } ∧
    sentExitCode (Call.passthrough { args := ["bin", "a"], env := ["E=1"], dir := "/d" } {}
        "/bin/real" { startFails := false, deadlineExceeded := false, wait := .exitError 7 }).2 =
      some 7 := by
  have h := passthrough_spec { args := ["bin", "a"], env := ["E=1"], dir := "/d" } {} "/bin/real"
    { startFails := false, deadlineExceeded := false, wait := .exitError 7 } rfl
  exact ⟨rfl, h.1, h.2.2.2.1 7 rfl rfl rfl⟩

/-- Unfolding of the matching walk for a non-sentinel head atom against an
exhausted actual vector. -/
theorem argsMatchFrom_cons_nil (i count : Nat) (e : ArgAtom) (es : List ArgAtom)
    (he : e ≠ ArgAtom.anyRemaining) :
    argsMatchFrom i count (e :: es) [] =
      { MatchCount := count, Explanation := missingArgMsg i e } := by
  cases e with
  | lit s => rfl
  | anyArg => rfl
  | pred d p => rfl
  | anyRemaining => exact absurd rfl he

/-- Unfolding of the matching walk for a non-sentinel head atom against a
nonempty actual vector. -/
theorem argsMatchFrom_cons_cons (i count : Nat) (e : ArgAtom) (es : List ArgAtom)
    (a : String) (as : List String) (he : e ≠ ArgAtom.anyRemaining) :
    argsMatchFrom i count (e :: es) (a :: as) =
      if e.accepts a then argsMatchFrom (i + 1) (count + atomMatchCount e a) es as
      else { MatchCount := count + atomMatchCount e a, Explanation := mismatchMsg i e a } := by
  cases e with
  | lit s => rfl
  | anyArg => rfl
  | pred d p => rfl
  | anyRemaining => exact absurd rfl he

/-- With no sentinel among the atoms, the walk succeeds iff the atoms and
the actual arguments correspond pointwise (which forces equal lengths). -/
theorem argsMatchFrom_isMatch_of_no_sentinel (a : List ArgAtom) (x : List String)
    (i count : Nat) (h : ArgAtom.anyRemaining ∉ a) :
    (argsMatchFrom i count a x).IsMatch = true ↔
      List.Forall₂ (fun e s => e.accepts s = true) a x := by
  induction a generalizing x i count with
  | nil =>
    cases x with
    | nil => simp [argsMatchFrom]
    | cons s ss => simp [argsMatchFrom]
  | cons e es ih =>
    have he : e ≠ ArgAtom.anyRemaining := fun hh => h (hh ▸ List.mem_cons_self e es)
    have hes : ArgAtom.anyRemaining ∉ es := fun hh => h (List.mem_cons_of_mem e hh)
    cases x with
    | nil =>
      rw [argsMatchFrom_cons_nil i count e es he]
      simp
    | cons s ss =>
      rw [argsMatchFrom_cons_cons i count e es s ss he]
      by_cases ha : e.accepts s = true
      · rw [if_pos ha, ih ss (i + 1) (count + atomMatchCount e s) hes]
        simp [ha]
      · rw [if_neg ha]
        simp [ha]

/-- With the atoms ending in the sentinel, the walk succeeds iff the
leading atoms correspond pointwise to a prefix of the actual arguments. -/
theorem argsMatchFrom_isMatch_sentinel (b : List ArgAtom) (x : List String)
    (i count : Nat) (h : ArgAtom.anyRemaining ∉ b) :
    (argsMatchFrom i count (b ++ [ArgAtom.anyRemaining]) x).IsMatch = true ↔
      (b.length ≤ x.length ∧ List.Forall₂ (fun e s => e.accepts s = true) b (x.take b.length)) := by
  induction b generalizing x i count with
  | nil => simp [argsMatchFrom]
  | cons e es ih =>
    have he : e ≠ ArgAtom.anyRemaining := fun hh => h (hh ▸ List.mem_cons_self e es)
    have hes : ArgAtom.anyRemaining ∉ es := fun hh => h (List.mem_cons_of_mem e hh)
    cases x with
    | nil =>
      rw [List.cons_append, argsMatchFrom_cons_nil i count e (es ++ [ArgAtom.anyRemaining]) he]
      simp
    | cons s ss =>
      rw [List.cons_append,
        argsMatchFrom_cons_cons i count e (es ++ [ArgAtom.anyRemaining]) s ss he]
      by_cases ha : e.accepts s = true
      · rw [if_pos ha, ih ss (i + 1) (count + atomMatchCount e s) hes]
        simp [ha, Nat.succ_le_succ_iff]
      · rw [if_neg ha]
        simp [ha]

/-- C5: Arguments.Match succeeds iff every declared atom accepts the actual
argument at its position and the vectors have equal length, except that a
trailing any-remaining sentinel lifts the length constraint to the atoms
before it; an empty pattern matches exactly the empty vector, and against
a nonempty vector it fails with the unexpected-extra-argument explanation. -/
theorem arguments_match_spec :
    (∀ (a : Arguments) (x : List String), ArgAtom.anyRemaining ∉ a →
      ((Arguments.Match a x).IsMatch = true ↔
        (x.length = a.length ∧ List.Forall₂ (fun e s => e.accepts s = true) a x))) ∧
    (∀ (b : List ArgAtom) (x : List String), ArgAtom.anyRemaining ∉ b →
      ((Arguments.Match (b ++ [ArgAtom.anyRemaining]) x).IsMatch = true ↔
        (b.length ≤ x.length ∧
          List.Forall₂ (fun e s => e.accepts s = true) b (x.take b.length)))) ∧
    ((Arguments.Match ([] : Arguments) ([] : List String)).IsMatch = true) ∧
    (∀ (s : String) (ss : List String),
      Arguments.Match ([] : Arguments) (s :: ss) =
        { IsMatch := false, MatchCount := 0, Explanation := extraArgMsg 1 }) := by
  refine ⟨?_, ?_, rfl, fun s ss => rfl⟩
  · intro a x h
    rw [Arguments.Match, argsMatchFrom_isMatch_of_no_sentinel a x 1 0 h]
    constructor
    · intro hf
      exact ⟨hf.length_eq.symm, hf⟩
    · intro hf
      exact hf.2
  · intro b x h
    exact argsMatchFrom_isMatch_sentinel b x 1 0 h

/-- C5 witness: a two-atom pattern with a literal and a wildcard matches a
matching two-argument vector. -/
theorem arguments_match_spec_witness :
    ArgAtom.anyRemaining ∉ ([ArgAtom.lit "x", ArgAtom.anyArg] : Arguments) ∧
    (Arguments.Match [ArgAtom.lit "x", ArgAtom.anyArg] ["x", "y"]).IsMatch = true := by
  have h : ArgAtom.anyRemaining ∉ ([ArgAtom.lit "x", ArgAtom.anyArg] : Arguments) := by
    simp
  refine ⟨h, (arguments_match_spec.1 [ArgAtom.lit "x", ArgAtom.anyArg] ["x", "y"] h).mpr ?_⟩
  exact ⟨rfl, .cons rfl (.cons rfl .nil)⟩

/-- A string append whose left part is nonempty is nonempty. -/
theorem append_ne_empty_left (s t : String) (h : s.length ≠ 0) : s ++ t ≠ "" := by
  intro he
  apply h
  have hl := congrArg String.length he
  rw [String.length_append] at hl
  simp only [String.length_empty] at hl
  omega

/-- A successful loop iteration of env.Match only bumps the counter. -/
theorem envMatchStep_ok (environ : List String) (r : EnvMatchResult) (e : String)
    (h : envEntryOk environ e = true) :
    envMatchStep environ r e = { r with MatchCount := r.MatchCount + 1 } := by
  unfold envMatchStep
  unfold envEntryOk at h
  cases hg : GetEnv ((splitEq e).headD "") environ with
  | none =>
    rw [hg] at h
    dsimp only at h
    cases h
  | some actual =>
    rw [hg] at h
    dsimp only at h ⊢
    simp only [decide_eq_true_eq] at h
    rw [if_neg]
    simpa using h

/-- A failing loop iteration of env.Match keeps the counter, clears
IsMatch and records a nonempty diagnostic. -/
theorem envMatchStep_fail (environ : List String) (r : EnvMatchResult) (e : String)
    (h : envEntryOk environ e = false) :
    (envMatchStep environ r e).MatchCount = r.MatchCount ∧
    (envMatchStep environ r e).IsMatch = false ∧
    (envMatchStep environ r e).Explanation ≠ "" := by
  unfold envMatchStep
  unfold envEntryOk at h
  cases hg : GetEnv ((splitEq e).headD "") environ with
  | none =>
    dsimp only
    refine ⟨rfl, rfl, ?_⟩
    rw [String.append_assoc, String.append_assoc, String.append_assoc]
    apply append_ne_empty_left
    decide
  | some actual =>
    rw [hg] at h
    dsimp only at h ⊢
    simp only [decide_eq_false_iff_not] at h
    rw [if_pos h]
    refine ⟨rfl, rfl, ?_⟩
    rw [String.append_assoc, String.append_assoc]
    apply append_ne_empty_left
    decide

/-- The env.Match fold adds one to the counter per required entry whose
lookup and value-segment comparison succeed. -/
theorem envFold_matchCount (environ : List String) :
    ∀ (expect : List String) (r : EnvMatchResult),
      (expect.foldl (envMatchStep environ) r).MatchCount =
        r.MatchCount + expect.countP (envEntryOk environ) := by
  intro expect
  induction expect with
  | nil => intro r; simp
  | cons e es ih =>
    intro r
    rw [List.foldl_cons, ih, List.countP_cons]
    cases h : envEntryOk environ e with
    | true =>
      rw [envMatchStep_ok environ r e h]
      simp [h]
      omega
    | false =>
      rw [(envMatchStep_fail environ r e h).1]
      simp [h]

/-- The env.Match fold leaves IsMatch true only when it started true and
every entry succeeded. -/
theorem envFold_isMatch (environ : List String) :
    ∀ (expect : List String) (r : EnvMatchResult),
      (expect.foldl (envMatchStep environ) r).IsMatch =
        (r.IsMatch && expect.all (envEntryOk environ)) := by
  intro expect
  induction expect with
  | nil => intro r; simp
  | cons e es ih =>
    intro r
    rw [List.foldl_cons, ih, List.all_cons]
    cases h : envEntryOk environ e with
    | true =>
      rw [envMatchStep_ok environ r e h]
      simp
    | false =>
      rw [(envMatchStep_fail environ r e h).2.1]
      simp

/-- The env.Match fold leaves the diagnostic untouched when every entry
succeeds. -/
theorem envFold_explanation_ok (environ : List String) :
    ∀ (expect : List String) (r : EnvMatchResult),
      expect.all (envEntryOk environ) = true →
      (expect.foldl (envMatchStep environ) r).Explanation = r.Explanation := by
  intro expect
  induction expect with
  | nil => intro r _; rfl
  | cons e es ih =>
    intro r hall
    rw [List.all_cons, Bool.and_eq_true] at hall
    rw [List.foldl_cons, envMatchStep_ok environ r e hall.1, ih _ hall.2]

/-- The env.Match fold ends with a nonempty diagnostic whenever some entry
fails. -/
theorem envFold_explanation_fail (environ : List String) :
    ∀ (expect : List String) (r : EnvMatchResult),
      (∃ e ∈ expect, envEntryOk environ e = false) →
      (expect.foldl (envMatchStep environ) r).Explanation ≠ "" := by
  intro expect
  induction expect with
  | nil =>
    intro r h
    obtain ⟨e, he, -⟩ := h
    cases he
  | cons e es ih =>
    intro r h
    rw [List.foldl_cons]
    by_cases hes : ∃ x ∈ es, envEntryOk environ x = false
    · exact ih _ hes
    · obtain ⟨y, hy, hyf⟩ := h
      have hye : y = e := by
        cases List.mem_cons.mp hy with
        | inl h1 => exact h1
        | inr h1 => exact absurd ⟨y, h1, hyf⟩ hes
      subst hye
      have hall : es.all (envEntryOk environ) = true := by
        rw [List.all_eq_true]
        intro x hx
        cases hxe : envEntryOk environ x with
        | true => rfl
        | false => exact absurd ⟨x, hx, hxe⟩ hes
      rw [envFold_explanation_ok environ es _ hall]
      exact (envMatchStep_fail environ r y hyf).2.2

/-- C9 counterexample: with a value containing an equals sign, env.Match
reports a match although the full values differ: only the segment between
the first and second equals sign is compared. -/
theorem env_value_counterexample :
    (envMatch ["FOO=a=b"] ["FOO=a=c"]).IsMatch = true ∧
    valueAfterEq "FOO=a=b" = "a=b" ∧
    valueAfterEq "FOO=a=c" = "a=c" ∧
    ("a=b" : String) ≠ "a=c" := by
  refine ⟨rfl, rfl, rfl, by decide⟩

/-- C9 (amended): env.Match reports IsMatch true iff for every required
entry the key before the first equals sign is present case-insensitively
in the environment and the stored value segment between the first and
second equals sign equals the required one (full exact value equality when
values contain no further equals sign); any failing entry forces IsMatch
false with a nonempty diagnostic explanation. -/
theorem env_match_spec (environ expect : List String) :
    ((envMatch environ expect).IsMatch = true ↔ ∀ e ∈ expect, envEntryOk environ e = true) ∧
    ((∃ e ∈ expect, envEntryOk environ e = false) →
      (envMatch environ expect).IsMatch = false ∧ (envMatch environ expect).Explanation ≠ "") := by
  have hcount := envFold_matchCount environ expect {}
  by_cases hall : ∀ e ∈ expect, envEntryOk environ e = true
  · have hcp : expect.countP (envEntryOk environ) = expect.length :=
      List.countP_eq_length.mpr hall
    have hmc : (expect.foldl (envMatchStep environ) {}).MatchCount = expect.length := by
      rw [hcount, hcp]
      simp
    constructor
    · unfold envMatch
      rw [if_pos hmc]
      exact ⟨fun _ => hall, fun _ => rfl⟩
    · rintro ⟨e, he, hf⟩
      exact absurd (hall e he) (by simp [hf])
  · have hex : ∃ e ∈ expect, envEntryOk environ e = false := by
      push_neg at hall
      obtain ⟨e, he, hf⟩ := hall
      exact ⟨e, he, by simpa using hf⟩
    have hcp : expect.countP (envEntryOk environ) ≠ expect.length := by
      intro hc
      exact hall (List.countP_eq_length.mp hc)
    have hmc : (expect.foldl (envMatchStep environ) {}).MatchCount ≠ expect.length := by
      rw [hcount]
      simpa using hcp
    have hres : envMatch environ expect = expect.foldl (envMatchStep environ) {} := by
      unfold envMatch
      rw [if_neg hmc]
    have him : (envMatch environ expect).IsMatch = false := by
      rw [hres, envFold_isMatch environ expect {}]
      simp
    refine ⟨?_, fun _ => ⟨him, ?_⟩⟩
    · rw [him]
      simp only [Bool.false_eq_true, false_iff]
      intro hc
      exact hall hc
    · rw [hres]
      exact envFold_explanation_fail environ expect {} hex

/-- C9 witness: a required key absent from an empty environment makes
env.Match fail with a diagnostic, through the amended theorem. -/
theorem env_match_spec_witness :
    (∃ e ∈ ["FOO=x"], envEntryOk ([] : List String) e = false) ∧
    (envMatch [] ["FOO=x"]).IsMatch = false ∧ (envMatch [] ["FOO=x"]).Explanation ≠ "" :=
  have hex : ∃ e ∈ ["FOO=x"], envEntryOk ([] : List String) e = false :=
    ⟨"FOO=x", by simp, rfl⟩
  ⟨hex, (env_match_spec [] ["FOO=x"]).2 hex⟩

/-- A successful firstHit scan locates the first hitting expectation. -/
theorem firstHit_some (args : List String) :
    ∀ (exp : List Expectation) (i j : Nat) (e : Expectation),
      firstHit args i exp = some (j, e) →
      ∃ pre post, exp = pre ++ e :: post ∧ j = i + pre.length ∧
        expectHit args e = true ∧ ∀ x ∈ pre, expectHit args x = false := by
  intro exp
  induction exp with
  | nil =>
    intro i j e h
    cases h
  | cons a as ih =>
    intro i j e h
    unfold firstHit at h
    by_cases ha : expectHit args a = true
    · rw [if_pos ha] at h
      simp only [Option.some.injEq, Prod.mk.injEq] at h
      obtain ⟨hj, he⟩ := h
      subst hj
      subst he
      exact ⟨[], as, rfl, by simp, ha, by simp⟩
    · rw [if_neg ha] at h
      obtain ⟨pre, post, hexp, hj, hhit, hpre⟩ := ih (i + 1) j e h
      refine ⟨a :: pre, post, by rw [hexp, List.cons_append], ?_, hhit, ?_⟩
      · rw [List.length_cons]
        omega
      · intro x hx
        rcases List.mem_cons.mp hx with h1 | h1
        · subst h1
          simpa using ha
        · exact hpre x h1

/-- A firstHit scan comes up empty iff no expectation hits. -/
theorem firstHit_none (args : List String) :
    ∀ (exp : List Expectation) (i : Nat),
      firstHit args i exp = none ↔ ∀ e ∈ exp, expectHit args e = false := by
  intro exp
  induction exp with
  | nil =>
    intro i
    simp [firstHit]
  | cons a as ih =>
    intro i
    unfold firstHit
    by_cases ha : expectHit args a = true
    · rw [if_pos ha]
      constructor
      · intro h
        cases h
      · intro hall
        exact absurd (hall a (List.mem_cons_self a as)) (by simp [ha])
    · rw [if_neg ha]
      rw [ih (i + 1)]
      constructor
      · intro h e he
        rcases List.mem_cons.mp he with h1 | h1
        · subst h1
          simpa using ha
        · exact h e h1
      · intro h e he
        exact h e (List.mem_cons_of_mem a he)

/-- ExpectationResultSet.Match over ForArguments is the firstHit scan,
packaged as a result row. -/
theorem forArguments_match_eq (args : List String) :
    ∀ (exp : List Expectation) (i : Nat),
      (forArgumentsFrom args i exp).Match =
        (firstHit args i exp).map fun ie => mkExpectationResult args ie.1 ie.2 := by
  intro exp
  induction exp with
  | nil =>
    intro i
    rfl
  | cons a as ih =>
    intro i
    unfold forArgumentsFrom firstHit
    unfold ExpectationResultSet.Match
    rw [List.find?_cons]
    by_cases ha : expectHit args a = true
    · have hp : ((mkExpectationResult args i a).argumentsMatchResult.IsMatch &&
          (mkExpectationResult args i a).callCountMatch) = true := ha
      rw [hp, if_pos ha]
      rfl
    · have hf : expectHit args a = false := by
        simpa using ha
      have hp : ((mkExpectationResult args i a).argumentsMatchResult.IsMatch &&
          (mkExpectationResult args i a).callCountMatch) = false := hf
      rw [hp, if_neg ha]
      exact ih (i + 1)

/-- C3: ExpectationResultSet.Match returns the first expectation in
declaration order whose arguments match and whose call count has room
(maxCalls equal to the unbounded sentinel always counts as available) and
reports the no-match signal exactly when no such expectation exists;
consequently, of two expectations with identical argument patterns the
earlier-declared one is returned while it still has room, and the later
one only once the earlier is drained. -/
theorem resultset_match_first (exp : ExpectationSet) (args : List String) :
    (∀ row, (exp.ForArguments args).Match = some row →
      ∃ pre post, exp = pre ++ row.expectation :: post ∧ row.index = pre.length ∧
        expectHit args row.expectation = true ∧ ∀ x ∈ pre, expectHit args x = false) ∧
    ((exp.ForArguments args).Match = none ↔ ∀ e ∈ exp, expectHit args e = false) ∧
    (∀ e : Expectation, e.maxCalls = InfiniteTimes → expectAvail e = true) ∧
    (∀ e1 e2 : Expectation, e1.arguments = e2.arguments → expectMatches args e1 = true →
      (expectAvail e1 = true →
        (ExpectationSet.ForArguments [e1, e2] args).Match =
          some (mkExpectationResult args 0 e1)) ∧
      (expectAvail e1 = false → expectAvail e2 = true →
        (ExpectationSet.ForArguments [e1, e2] args).Match =
          some (mkExpectationResult args 1 e2))) := by
  refine ⟨?_, ?_, ?_, ?_⟩
  · intro row hrow
    rw [ExpectationSet.ForArguments, forArguments_match_eq args exp 0] at hrow
    obtain ⟨⟨j, e⟩, hfh, hmk⟩ := Option.map_eq_some'.mp hrow
    obtain ⟨pre, post, hexp, hj, hhit, hpre⟩ := firstHit_some args exp 0 j e hfh
    subst hmk
    exact ⟨pre, post, hexp, by simpa using hj, hhit, hpre⟩
  · rw [ExpectationSet.ForArguments, forArguments_match_eq args exp 0,
      Option.map_eq_none', firstHit_none args exp 0]
  · intro e he
    unfold expectAvail
    simp [he]
  · intro e1 e2 harg hm
    have hm2 : expectMatches args e2 = true := by
      unfold expectMatches at hm ⊢
      rw [← harg]
      exact hm
    constructor
    · intro ha
      rw [ExpectationSet.ForArguments, forArguments_match_eq args [e1, e2] 0]
      unfold firstHit
      rw [if_pos (by unfold expectHit; rw [hm, ha]; rfl)]
      rfl
    · intro ha1 ha2
      rw [ExpectationSet.ForArguments, forArguments_match_eq args [e1, e2] 0]
      unfold firstHit
      rw [if_neg (by unfold expectHit; rw [hm, ha1]; simp)]
      unfold firstHit
      rw [if_pos (by unfold expectHit; rw [hm2, ha2]; rfl)]
      rfl

/-- C3 witness: of two identical always-matching expectations, the drained
first one is skipped and the second is returned. -/
theorem resultset_match_first_witness :
    (({ arguments := [ArgAtom.lit "x"], maxCalls := 1, totalCalls := 1 } : Expectation).arguments =
      ({ arguments := [ArgAtom.lit "x"], maxCalls := 5 } : Expectation).arguments) ∧
    expectMatches ["x"] { arguments := [ArgAtom.lit "x"], maxCalls := 1, totalCalls := 1 } = true ∧
    expectAvail { arguments := [ArgAtom.lit "x"], maxCalls := 1, totalCalls := 1 } = false ∧
    expectAvail { arguments := [ArgAtom.lit "x"], maxCalls := 5 } = true ∧
    (ExpectationSet.ForArguments
        [{ arguments := [ArgAtom.lit "x"], maxCalls := 1, totalCalls := 1 },
         { arguments := [ArgAtom.lit "x"], maxCalls := 5 }] ["x"]).Match =
      some (mkExpectationResult ["x"] 1 { arguments := [ArgAtom.lit "x"], maxCalls := 5 }) := by
  refine ⟨rfl, rfl, rfl, rfl, ?_⟩
  exact ((resultset_match_first
    [{ arguments := [ArgAtom.lit "x"], maxCalls := 1, totalCalls := 1 },
     { arguments := [ArgAtom.lit "x"], maxCalls := 5 }] ["x"]).2.2.2
    { arguments := [ArgAtom.lit "x"], maxCalls := 1, totalCalls := 1 }
    { arguments := [ArgAtom.lit "x"], maxCalls := 5 } rfl rfl).2 rfl rfl

/-- C4: when the before middleware raises no error and the argument vector
matches no expectation, Mock.invoke records the invocation with no matched
expectation (so Check can surface it) and leaves the expectation set
untouched; with ignoreUnexpected set the call exits with code zero, and
with it unset the closest-match explanation is written to the call stderr
and the call exits with code one. -/
theorem invoke_unmatched (m : Mock) (call : CallIn)
    (hb : ∀ f ∈ m.before, f { args := call.args.drop 1, env := call.env, dir := call.dir } = none)
    (hm : (ExpectationSet.ForArguments m.expected (call.args.drop 1)).Match = none) :
    (Mock.invoke m call).1.invocations =
      m.invocations ++
        [{ args := call.args.drop 1, env := call.env, dir := call.dir, expectation := none }] ∧
    (Mock.invoke m call).1.expected = m.expected ∧
    (m.ignoreUnexpected = true → (Mock.invoke m call).2 = [.exit 0]) ∧
    (m.ignoreUnexpected = false →
      (Mock.invoke m call).2 =
        [.stderrWrite (errorLine
          ((ExpectationSet.ForArguments m.expected (call.args.drop 1)).ClosestMatch.Explain)),
         .exit 1]) := by
  unfold Mock.invoke
  dsimp only
  rw [List.findSome?_eq_none_iff.mpr hb]
  rw [hm]
  cases hig : m.ignoreUnexpected with
  | true =>
    refine ⟨rfl, rfl, fun _ => rfl, ?_⟩
    intro h
    exact absurd h (by decide)
  | false =>
    refine ⟨rfl, rfl, ?_, fun _ => rfl⟩
    intro h
    exact absurd h (by decide)

/-- C4 witness: one declared expectation on a different argument, the call
does not match, ignoreUnexpected unset: the invocation is recorded
unmatched, the explanation goes to stderr and the exit code is one. -/
theorem invoke_unmatched_witness :
    (∀ f ∈ ({ expected := [{ arguments := [ArgAtom.lit "x"], minCalls := 1, maxCalls := 1 }] } :
        Mock).before,
      f { args := ["y"], env := [], dir := "" } = none) ∧
    (ExpectationSet.ForArguments
      ({ expected := [{ arguments := [ArgAtom.lit "x"], minCalls := 1, maxCalls := 1 }] } :
        Mock).expected ["y"]).Match = none ∧
    (Mock.invoke { expected := [{ arguments := [ArgAtom.lit "x"], minCalls := 1, maxCalls := 1 }] }
      { args := ["bin", "y"] }).1.invocations =
      [{ args := ["y"], env := [], dir := "", expectation := none }] ∧
    (Mock.invoke { expected := [{ arguments := [ArgAtom.lit "x"], minCalls := 1, maxCalls := 1 }] }
      { args := ["bin", "y"] }).2 =
      [.stderrWrite (errorLine
        ((ExpectationSet.ForArguments
          [{ arguments := [ArgAtom.lit "x"], minCalls := 1, maxCalls := 1 }] ["y"]).ClosestMatch.Explain)),
       .exit 1] := by
  have hb : ∀ f ∈ ({ expected := [{ arguments := [ArgAtom.lit "x"], minCalls := 1, maxCalls := 1 }] } :
      Mock).before, f { args := ["y"], env := [], dir := "" } = none := by
    intro f hf
    cases hf
  have hm : (ExpectationSet.ForArguments
      ({ expected := [{ arguments := [ArgAtom.lit "x"], minCalls := 1, maxCalls := 1 }] } :
        Mock).expected ["y"]).Match = none := rfl
  have h := invoke_unmatched
    { expected := [{ arguments := [ArgAtom.lit "x"], minCalls := 1, maxCalls := 1 }] }
    { args := ["bin", "y"] } hb hm
  exact ⟨hb, hm, h.1, h.2.2.2 rfl⟩

end Bintest
